import Mathlib

/-!
Verification of the circle_bot shape-scoring pipeline and submission ledger
(`bot.py`), as a shallow embedding in Lean.

The scorer `analyse_image` calls four opaque OpenCV primitives:
`cv2.imdecode`, the grayscale/threshold step, `cv2.findContours`,
and `cv2.minEnclosingCircle`.  We embed the repository's own control flow
and arithmetic exactly, and treat the library primitives as inputs:

* the decode + threshold + contour-extraction front end is summarised by a
  value of type `Option (List Contour)` — `none` when `cv2.imdecode`
  returns `None` (decode failure), `some cs` when decoding succeeds and
  `cv2.findContours` returns the contour list `cs`;
* `cv2.minEnclosingCircle` is an oracle `Contour → ℚ` giving the radius of
  the minimum enclosing circle of a contour;
* `cv2.contourArea` is documented to return the absolute value of the
  Green-formula (shoelace) area of the contour polygon, which we embed
  directly (`contourArea`);
* Python float arithmetic is idealised as exact rational arithmetic, and
  `np.pi` is embedded as the exact rational value of the IEEE-754 double
  that `np.pi` denotes.

The ledger is the SQLite table `scores (user_id INTEGER, score REAL,
date TEXT, PRIMARY KEY (user_id, date))`; we embed it as a list of rows,
and the `PRIMARY KEY` uniqueness constraint as the guard of `record`.
-/

/-- A contour as produced by `cv2.findContours`: a closed polygon given by
its list of integer pixel coordinates. -/
abbrev Contour := List (Int × Int)

/-- Cross product `p.x * q.y - q.x * p.y`, the summand of the shoelace
formula for one polygon edge. -/
def cross (p q : Int × Int) : Int :=
  p.1 * q.2 - q.1 * p.2

/-- Twice the signed shoelace area of the polygon edges from `prev` through
the remaining vertices and back to `first`. -/
def shoelaceFrom (first : Int × Int) : Int × Int → List (Int × Int) → Int
  | last, [] => cross last first
  | prev, q :: rest => cross prev q + shoelaceFrom first q rest

/-- Twice the signed area of a closed polygon (shoelace / Green formula). -/
def twiceArea : List (Int × Int) → Int
  | [] => 0
  | p :: rest => shoelaceFrom p p rest

/-- `cv2.contourArea` without the `oriented` flag: the absolute value of the
Green-formula area of the contour polygon. -/
def contourArea (pts : Contour) : ℚ :=
  (|twiceArea pts| : Int) / 2

/-- The exact rational value of the IEEE-754 double `np.pi` used at
`circle_area = np.pi * (radius ** 2)`. -/
def np_pi : ℚ :=
  884279719003555 / 281474976710656

/-- `max(contours, key=cv2.contourArea)`: Python's `max` keeps the current
best on ties and replaces it only when the new key is strictly greater, so
the first contour of maximal area is selected. -/
def maxByAreaAux : Contour → List Contour → Contour
  | best, [] => best
  | best, c :: rest =>
      maxByAreaAux (if contourArea best < contourArea c then c else best) rest

/-- Result of `analyse_image`: `failure` is Python `None` (the caller treats
it as a rejected submission), `score s` is a numeric circularity
percentage. -/
inductive AnalysisResult where
  | failure : AnalysisResult
  | score : ℚ → AnalysisResult
deriving DecidableEq

/-- Embedding of `analyse_image` (bot.py lines 157–211).

`decoded` summarises the decode/threshold/findContours front end (`none` =
`cv2.imdecode` returned `None`); `minEnclosingCircleRadius` is the
`cv2.minEnclosingCircle` oracle.  The branching mirrors the source:
decode failure returns `None`; an empty contour list prints
"No shapes found" but returns `0.0`; zero contour area returns `0.0`;
zero circle area returns `0.0`; otherwise
`percentage = (area / circle_area) * 100`. -/
def analyse_image (decoded : Option (List Contour))
    (minEnclosingCircleRadius : Contour → ℚ) : AnalysisResult :=
  match decoded with
  | none => .failure
  | some contours =>
    match contours with
    | [] => .score 0
    | c :: rest =>
      let largest_contour := maxByAreaAux c rest
      let area := contourArea largest_contour
      if area = 0 then .score 0
      else
        let radius := minEnclosingCircleRadius largest_contour
        let circle_area := np_pi * radius ^ 2
        if circle_area = 0 then .score 0
        else .score (area / circle_area * 100)

/-- One row of the SQLite `scores` table. -/
structure Row where
  user_id : Int
  score : ℚ
  date : String
deriving DecidableEq

/-- The `scores` table: rows in insertion order. -/
structure Ledger where
  rows : List Row
deriving DecidableEq

/-- The primary-key predicate: row `r` matches key `(u, d)`. -/
def keyMatch (u : Int) (d : String) (r : Row) : Bool :=
  r.user_id = u && r.date = d

/-- `SELECT 1 FROM scores WHERE user_id = ? AND date = ?` followed by
`fetchone()` being non-`None` (bot.py lines 418–419). -/
def hasSubmitted (l : Ledger) (u : Int) (d : String) : Bool :=
  l.rows.any (keyMatch u d)

/-- The duplicate-submission check of `on_message` (bot.py lines 416–424):
it opens a connection, runs the `SELECT`, and closes the connection —
returning the query result and leaving the table untouched. -/
def hasSubmittedOp (u : Int) (d : String) (l : Ledger) : Bool × Ledger :=
  (hasSubmitted l u d, l)

/-- Result of the `INSERT`: `ok` with the new table, or the
`PRIMARY KEY (user_id, date)` constraint violation. -/
inductive RecordResult where
  | ok : Ledger → RecordResult
  | duplicateKey : RecordResult
deriving DecidableEq

/-- `INSERT INTO scores (user_id, date, score) VALUES (?, ?, ?)` against the
table created by `setup_database` (bot.py lines 218–236): the
`PRIMARY KEY (user_id, date)` constraint makes the insert fail when a row
with the same key exists; otherwise the row is appended. -/
def record (l : Ledger) (u : Int) (d : String) (s : ℚ) : RecordResult :=
  if l.rows.any (keyMatch u d) then .duplicateKey
  else .ok ⟨l.rows ++ [⟨u, s, d⟩]⟩

/-- Outcome of one submission event as replied to the user. -/
inductive SubmissionOutcome where
  | alreadySubmitted : SubmissionOutcome
  | rejected : SubmissionOutcome
  | saveFailed : ℚ → SubmissionOutcome
  | accepted : ℚ → SubmissionOutcome
deriving DecidableEq

/-- Embedding of the submission path of `on_message` (bot.py lines
414–461), after the attachment has been downloaded: reject if
`hasSubmitted`; run `analyse_image`; a `None` analysis is rejected without
touching the table; a numeric score is `INSERT`ed, and an insert failure
(the `except` around the save) leaves the table unchanged. -/
def on_message_submit (l : Ledger) (u : Int) (d : String)
    (decoded : Option (List Contour)) (rad : Contour → ℚ) :
    SubmissionOutcome × Ledger :=
  if hasSubmitted l u d then (.alreadySubmitted, l)
  else
    match analyse_image decoded rad with
    | .failure => (.rejected, l)
    | .score s =>
      match record l u d s with
      | .ok next => (.accepted s, next)
      | .duplicateKey => (.saveFailed s, l)

/-- `SELECT user_id, score FROM scores WHERE date = ? ORDER BY score DESC`
(bot.py line 331): the day's rows, sorted by score descending. -/
def rankedScores (l : Ledger) (d : String) : List (Int × ℚ) :=
  (((l.rows.filter (fun r => r.date = d)).map
      (fun r => (r.user_id, r.score))).mergeSort
    (fun a b => decide (b.2 ≤ a.2)))

/-! ### Helper lemmas -/

theorem contourArea_nonneg (pts : Contour) : 0 ≤ contourArea pts := by
  unfold contourArea
  positivity

theorem np_pi_pos : 0 < np_pi := by norm_num [np_pi]

theorem circle_area_nonneg (r : ℚ) : 0 ≤ np_pi * r ^ 2 := by
  have := np_pi_pos
  positivity

theorem analyse_image_score_nonneg (decoded : Option (List Contour))
    (rad : Contour → ℚ) (s : ℚ) (h : analyse_image decoded rad = .score s) :
    0 ≤ s := by
  match decoded with
  | none => simp [analyse_image] at h
  | some [] =>
    simp only [analyse_image, AnalysisResult.score.injEq] at h
    exact le_of_eq h
  | some (c :: rest) =>
    simp only [analyse_image] at h
    split at h
    · simp only [AnalysisResult.score.injEq] at h
      exact le_of_eq h
    · split at h
      · simp only [AnalysisResult.score.injEq] at h
        exact le_of_eq h
      · rename_i hca
        simp only [AnalysisResult.score.injEq] at h
        subst h
        have h1 := contourArea_nonneg (maxByAreaAux c rest)
        have h2 : 0 < np_pi * rad (maxByAreaAux c rest) ^ 2 :=
          lt_of_le_of_ne (circle_area_nonneg _) (Ne.symm hca)
        positivity

/-! ### Claim theorems -/

/-- Claim C1 (code-bug evaluation): on an image that decodes but whose
binarized foreground has no external contours (a blank white image),
`analyse_image` logs a failure but returns the numeric score `0.0` — not
the `None` rejection the claim (and the docstring of `analyse_image`)
describes as `NoShapeFound`. -/
theorem noContours_returns_numeric_zero :
    analyse_image (some []) (fun _ => 0) = .score 0 ∧
    analyse_image (some []) (fun _ => 0) ≠ .failure := by
  refine ⟨rfl, ?_⟩
  intro h
  simp [analyse_image] at h

/-- Claim C2 (code-bug evaluation): a submission whose image decodes but
contains no contour is recorded in the ledger with score `0.0`, because
`analyse_image` returns `0.0` rather than `None` in that case; the claim
says a `NoShapeFound` submission is never written to the ledger. -/
theorem noShape_submission_recorded :
    on_message_submit ⟨[]⟩ 1 "2026-10-12" (some []) (fun _ => 0) =
      (.accepted 0, ⟨[⟨1, 0, "2026-10-12"⟩]⟩) := by
  decide

/-- Claim C3: the `PRIMARY KEY (user_id, date)` constraint makes `record`
fail with `duplicateKey` whenever a row with that key exists; calling
`record` twice with the same `(user_id, day)` starting from a ledger
without that key succeeds exactly once and leaves exactly one row for the
key. -/
theorem record_duplicate_key (l : Ledger) (u : Int) (d : String) (s s' : ℚ)
    (h : hasSubmitted l u d = false) :
    (∀ m : Ledger, hasSubmitted m u d = true → record m u d s = .duplicateKey) ∧
    ∃ next, record l u d s = .ok next ∧ record next u d s' = .duplicateKey ∧
      (next.rows.filter (keyMatch u d)).length = 1 := by
  constructor
  · intro m hm
    simp only [hasSubmitted] at hm
    simp [record, hm]
  · refine ⟨⟨l.rows ++ [⟨u, s, d⟩]⟩, ?_, ?_, ?_⟩
    · simp only [hasSubmitted] at h
      simp [record, h]
    · simp [record, keyMatch]
    · have hnone : l.rows.filter (keyMatch u d) = [] := by
        simp only [hasSubmitted, List.any_eq_false] at h
        exact List.filter_eq_nil_iff.mpr h
      simp [List.filter_append, hnone, keyMatch]

/-- Claim C3 witness: starting from the empty ledger, recording twice for
user 1 on a fixed day yields one success, then `duplicateKey`, with one
row for the key. -/
theorem record_duplicate_key_witness :
    (∀ m : Ledger, hasSubmitted m 1 "2026-10-12" = true →
      record m 1 "2026-10-12" 50 = .duplicateKey) ∧
    ∃ next, record ⟨[]⟩ 1 "2026-10-12" 50 = .ok next ∧
      record next 1 "2026-10-12" 60 = .duplicateKey ∧
      (next.rows.filter (keyMatch 1 "2026-10-12")).length = 1 :=
  record_duplicate_key ⟨[]⟩ 1 "2026-10-12" 50 60 (by decide)

/-- Claim C4: when the selected (largest) contour has positive area and its
minimum enclosing circle has positive area, `analyse_image` returns exactly
`100 * area / circleArea`, with no clamping — so (see the witness) the
score can exceed 100. -/
theorem score_formula_unclamped (c : Contour) (rest : List Contour)
    (rad : Contour → ℚ)
    (harea : 0 < contourArea (maxByAreaAux c rest))
    (hcirc : 0 < np_pi * rad (maxByAreaAux c rest) ^ 2) :
    analyse_image (some (c :: rest)) rad =
      .score (100 * contourArea (maxByAreaAux c rest) /
        (np_pi * rad (maxByAreaAux c rest) ^ 2)) := by
  simp only [analyse_image]
  rw [if_neg (ne_of_gt harea), if_neg (ne_of_gt hcirc)]
  congr 1
  rw [div_mul_eq_mul_div, mul_comm]

/-- Claim C4 witness: a 10×10 axis-aligned square contour with the circle
oracle answering radius 1 scores `100 · 100 / π` — well above 100, showing
the absence of clamping concretely. -/
theorem score_formula_unclamped_witness :
    analyse_image (some [[(0, 0), (10, 0), (10, 10), (0, 10)]]) (fun _ => 1) =
      .score (100 * contourArea
          (maxByAreaAux [(0, 0), (10, 0), (10, 10), (0, 10)] []) /
        (np_pi * (1 : ℚ) ^ 2)) ∧
    (100 : ℚ) < 100 * contourArea
          (maxByAreaAux [(0, 0), (10, 0), (10, 10), (0, 10)] []) /
        (np_pi * (1 : ℚ) ^ 2) := by
  constructor
  · exact score_formula_unclamped [(0, 0), (10, 0), (10, 10), (0, 10)] []
      (fun _ => 1)
      (by norm_num [maxByAreaAux, contourArea, twiceArea, shoelaceFrom, cross])
      (by norm_num [np_pi])
  · norm_num [maxByAreaAux, contourArea, twiceArea, shoelaceFrom, cross, np_pi]

/-- Claim C5: with at least one contour, if the selected contour's polygon
area is `0`, or its minimum enclosing circle has area `0`, `analyse_image`
returns the numeric score `0.0`, not a rejection. -/
theorem degenerate_shape_scores_zero (c : Contour) (rest : List Contour)
    (rad : Contour → ℚ)
    (h : contourArea (maxByAreaAux c rest) = 0 ∨
      np_pi * rad (maxByAreaAux c rest) ^ 2 = 0) :
    analyse_image (some (c :: rest)) rad = .score 0 := by
  rcases h with h | h
  · simp [analyse_image, h]
  · simp [analyse_image, h]

/-- Claim C5 witness: a single-point contour has polygon area `0` and is
scored `0.0`. -/
theorem degenerate_shape_scores_zero_witness :
    analyse_image (some [[(0, 0)]]) (fun _ => 1) = .score 0 :=
  degenerate_shape_scores_zero [(0, 0)] [] (fun _ => 1)
    (Or.inl (by norm_num [maxByAreaAux, contourArea, twiceArea, shoelaceFrom,
      cross]))

/-- Claim C6: `rankedScores` returns the day's submissions (as a
permutation of the day's rows, projected to `(user_id, score)`) in
non-increasing score order, and a day with no submissions yields the empty
sequence. -/
theorem rankedScores_sorted_desc (l : Ledger) (d : String) :
    List.Pairwise (fun a b : Int × ℚ => b.2 ≤ a.2) (rankedScores l d) ∧
    List.Perm (rankedScores l d)
      ((l.rows.filter (fun r => r.date = d)).map
        (fun r => (r.user_id, r.score))) ∧
    ((∀ r ∈ l.rows, r.date ≠ d) → rankedScores l d = []) := by
  refine ⟨?_, ?_, ?_⟩
  · have hs := @List.sorted_mergeSort (Int × ℚ)
      (fun a b => decide (b.2 ≤ a.2))
      (fun a b c hab hbc => by
        simp only [decide_eq_true_eq] at *
        exact le_trans hbc hab)
      (fun a b => by
        simp only [Bool.or_eq_true, decide_eq_true_eq]
        exact le_total b.2 a.2)
      ((l.rows.filter (fun r => r.date = d)).map
        (fun r => (r.user_id, r.score)))
    exact hs.imp (fun h => by simpa using h)
  · exact List.mergeSort_perm _ _
  · intro hnone
    have hfil : l.rows.filter (fun r => r.date = d) = [] := by
      apply List.filter_eq_nil_iff.mpr
      intro r hr
      simpa using hnone r hr
    simp [rankedScores, hfil]

/-- Claim C6 witness: on the empty ledger, `rankedScores` is sorted and
empty. -/
theorem rankedScores_sorted_desc_witness :
    rankedScores ⟨[]⟩ "2026-10-12" = [] :=
  (rankedScores_sorted_desc ⟨[]⟩ "2026-10-12").2.2 (by simp)

/-- Claim C7: when `cv2.imdecode` cannot decode the byte sequence (it
returns `None`), `analyse_image` returns the `None`/failure rejection and
no numeric score. -/
theorem decode_failure_rejected (rad : Contour → ℚ) :
    analyse_image none rad = .failure ∧
    ∀ s : ℚ, analyse_image none rad ≠ .score s := by
  refine ⟨rfl, ?_⟩
  intro s h
  simp [analyse_image] at h

/-- Claim C7 witness: the failure result at a concrete oracle. -/
theorem decode_failure_rejected_witness :
    analyse_image none (fun _ => 0) = .failure :=
  (decode_failure_rejected (fun _ => 0)).1

/-- Claim C8: when the user already has a row for the day, the submission
path returns `alreadySubmitted` and an unchanged ledger, and the result
does not depend on the decode/contour data or the circle oracle — scoring
is never consulted. -/
theorem already_submitted_skips_scoring (l : Ledger) (u : Int) (d : String)
    (decoded : Option (List Contour)) (rad : Contour → ℚ)
    (h : hasSubmitted l u d = true) :
    on_message_submit l u d decoded rad = (.alreadySubmitted, l) := by
  simp [on_message_submit, h]

/-- Claim C8 witness: a user with an existing row for the day is turned
away without the ledger changing. -/
theorem already_submitted_skips_scoring_witness :
    on_message_submit ⟨[⟨7, 50, "2026-10-12"⟩]⟩ 7 "2026-10-12" none
      (fun _ => 0) = (.alreadySubmitted, ⟨[⟨7, 50, "2026-10-12"⟩]⟩) :=
  already_submitted_skips_scoring ⟨[⟨7, 50, "2026-10-12"⟩]⟩ 7 "2026-10-12"
    none (fun _ => 0) (by decide)

/-- Claim C9: the duplicate-submission check is read-only — any sequence of
`hasSubmittedOp` calls, with no intervening `record`, leaves the ledger
unchanged. -/
theorem hasSubmitted_readonly (qs : List (Int × String)) (l : Ledger) :
    List.foldl (fun st q => (hasSubmittedOp q.1 q.2 st).2) l qs = l := by
  induction qs generalizing l with
  | nil => rfl
  | cons q rest ih => exact ih l

/-- Claim C10: whenever `analyse_image` returns a numeric score, that score
is non-negative; consequently the submission path preserves the invariant
that every ledger row has a non-negative score. -/
theorem scorer_and_ledger_nonneg :
    (∀ (decoded : Option (List Contour)) (rad : Contour → ℚ) (s : ℚ),
      analyse_image decoded rad = .score s → 0 ≤ s) ∧
    (∀ l : Ledger, (∀ r ∈ l.rows, 0 ≤ r.score) →
      ∀ (u : Int) (d : String) (decoded : Option (List Contour))
        (rad : Contour → ℚ),
        ∀ r ∈ (on_message_submit l u d decoded rad).2.rows, 0 ≤ r.score) := by
  refine ⟨analyse_image_score_nonneg, ?_⟩
  intro l hl u d decoded rad r hr
  unfold on_message_submit at hr
  split at hr
  · exact hl r hr
  · split at hr
    · exact hl r hr
    · rename_i s hA
      split at hr
      · rename_i next heq
        unfold record at heq
        split at heq
        · exact absurd heq (by simp)
        · have hnext : next = ⟨l.rows ++ [⟨u, s, d⟩]⟩ := by
            cases heq
            rfl
          subst hnext
          simp only at hr
          rcases List.mem_append.mp hr with hmem | hmem
          · exact hl r hmem
          · have hrq : r = ⟨u, s, d⟩ := by simpa using hmem
            subst hrq
            exact analyse_image_score_nonneg decoded rad s hA
      · exact hl r hr

/-- Claim C10 witness: the row written for a concrete (blank-image)
submission has a non-negative score. -/
theorem scorer_and_ledger_nonneg_witness :
    0 ≤ (Row.mk 1 0 "2026-10-12").score :=
  scorer_and_ledger_nonneg.2 ⟨[]⟩ (by simp) 1 "2026-10-12" (some [])
    (fun _ => 0) ⟨1, 0, "2026-10-12"⟩ (by decide)
